import Mathlib

/-!
Shallow embedding of the rag-telegram repository.

Two programs are embedded:
* `src/chatbot.js` (query service): a Telegram message handler that
  retrieves fragments from a pgvector store, builds a grounded prompt,
  invokes an LLM and replies.  External effects (similarity search, LLM
  call, Telegram sendMessage delivery) are supplied as an oracle; the
  handler itself is embedded as a pure function returning a trace of
  what it did.
* `src/embed_and_store_db.js` (ingestion run): fetch → chunk → embed →
  store, with a pool liveness check, a finally-release of the pool, a
  30-second watchdog timer and a launcher that sets the process exit
  code.
-/

/-- Failure kinds for external calls (axios fetch, splitter, pg queries,
PGVectorStore operations, LLM invocation, Telegram message delivery). -/
inductive Err where
  | fetchErr
  | chunkErr
  | livenessErr
  | initErr
  | storeErr
  | searchErr
  | llmErr
  | transportErr
  deriving DecidableEq, Repr

/-! ## Model of the JavaScript string primitives used by the handler

`String.prototype.trim` and `String.prototype.startsWith` are modelled
structurally on the character list so that they compute in the kernel. -/

/-- Whitespace test used by the model of `trim` (space, tab, LF, CR). -/
def jsWhitespace (c : Char) : Bool :=
  c == ' ' || c == '\t' || c == '\n' || c == '\r'

/-- Model of JavaScript `s.trim()`: drop whitespace at both ends. -/
def jsTrim (s : String) : String :=
  String.mk (((s.data.dropWhile jsWhitespace).reverse.dropWhile jsWhitespace).reverse)

/-- Character-list prefix test (with decidable equality, kernel-computable). -/
def isPrefixL : List Char → List Char → Bool
  | [], _ => true
  | _ :: _, [] => false
  | a :: as, b :: bs => if a = b then isPrefixL as bs else false

/-- Model of JavaScript `s.startsWith(p)`. -/
def jsStartsWith (s p : String) : Bool :=
  isPrefixL p.data s.data

/-- Substring occurrence test: `occursIn a s` is true iff the character
list `a` occurs contiguously inside `s`. -/
def occursIn (a : List Char) : List Char → Bool
  | [] => isPrefixL a []
  | c :: rest => isPrefixL a (c :: rest) || occursIn a rest

namespace Chatbot

/-- An inbound Telegram message: chat id plus optional text
(`msg.text` may be absent, e.g. stickers or photos). -/
structure Msg where
  chatId : Int
  text : Option String

/-- The LLM response `content` field as seen by the handler: a string, a
non-string value (e.g. an array of content parts), or absent. -/
inductive Content where
  | str (s : String)
  | nonString
  | missing
  deriving DecidableEq

/-- The validation performed at `if (!answer || typeof answer !== "string"
|| answer.trim() === "") throw ...`: returns the answer exactly when it is
a string that is non-empty and not whitespace-only. -/
def validAnswer : Content → Option String
  | .str s => if s = "" then none else if jsTrim s = "" then none else some s
  | .nonString => none
  | .missing => none

/-- Oracle for the handler's external calls.  `sendOk n` says whether the
`n`-th `bot.sendMessage` call issued during this handler run is delivered
(counting from 0); a `false` models a rejected delivery promise. -/
structure BotOracle where
  search : String → Nat → Except Err (List String)
  llm : String → Except Err Content
  sendOk : Nat → Bool

/-- How one handler invocation ends: the async function returns normally,
or its promise rejects with an uncaught exception. -/
inductive HOutcome where
  | normal
  | thrown (e : Err)
  deriving DecidableEq

/-- Trace of one handler invocation. `attempts` records every
`bot.sendMessage` call (chat id, text) in order; `delivered` the subset
whose delivery succeeded; `searchArgs` every `similaritySearch` call with
its arguments; `caughtLogged` whether the catch block ran (which logs the
error). -/
structure HTrace where
  attempts : List (Int × String)
  delivered : List (Int × String)
  searchArgs : List (String × Nat)
  llmCalls : Nat
  retrieved : Option (List String)
  promptUsed : Option String
  caughtLogged : Bool
  outcome : HOutcome
  deriving DecidableEq

/-- Trace of a handler run that sent nothing and called nothing. -/
def emptyTrace : HTrace :=
  { attempts := [], delivered := [], searchArgs := [], llmCalls := 0,
    retrieved := none, promptUsed := none, caughtLogged := false,
    outcome := .normal }

/-- The `/start` greeting literal from the source. -/
def greetingMsg : String :=
  "¡Hola! Estoy listo para responder tus preguntas sobre el contenido del blog. ¿Qué te gustaría saber?"

/-- The waiting message sent before the try block. -/
def waitingMsg : String :=
  "Procesando tu pregunta, dame un momento..."

/-- The fixed no-information reply for empty retrieval. -/
def noInfoMsg : String :=
  "No encontré información relevante para tu pregunta. ¿Puedes reformularla?"

/-- The generic apologetic reply sent from the catch block. -/
def apologyMsg : String :=
  "Lo siento, ocurrió un error al procesar tu pregunta. Por favor, inténtalo de nuevo más tarde."

/-- The instruction line opening the prompt template. -/
def instrHeader : String :=
  "Responde la siguiente pregunta usando SÓLO la información proporcionada."

/-- One ranked context line `(${i + 1}) ${d.pageContent}` (`i` is the
0-based map index, so the printed rank is 1-based). -/
def rankTag (i : Nat) (d : String) : String :=
  "(" ++ toString (i + 1) ++ ") " ++ d

/-- Model of `docs.map((d, i) => ...)` producing the ranked lines. -/
def tagFragments (i : Nat) : List String → List String
  | [] => []
  | d :: rest => rankTag i d :: tagFragments (i + 1) rest

/-- Model of `Array.prototype.join(sep)`. -/
def joinSep (sep : String) : List String → String
  | [] => ""
  | [a] => a
  | a :: b :: rest => a ++ sep ++ joinSep sep (b :: rest)

/-- The `context` variable: ranked lines joined with newlines. -/
def contextOf (docs : List String) : String :=
  joinSep "\n" (tagFragments 0 docs)

/-- The prompt template literal from `src/chatbot.js`. -/
def buildPrompt (text : String) (docs : List String) : String :=
  instrHeader ++ "\n\n" ++ contextOf docs ++ "\n\nPregunta: " ++ text
    ++ "\nRespuesta en español:"

/-- The catch block: logs (recorded in `caughtLogged`) and awaits one
apology `sendMessage` whose delivery is the oracle's verdict for send
index `idx`; a failed apology delivery rejects the handler promise. -/
def runCatch (o : BotOracle) (c : Int) (idx : Nat) (base : HTrace) : HTrace :=
  if o.sendOk idx then
    { base with attempts := base.attempts ++ [(c, apologyMsg)],
                delivered := base.delivered ++ [(c, apologyMsg)],
                caughtLogged := true, outcome := .normal }
  else
    { base with attempts := base.attempts ++ [(c, apologyMsg)],
                caughtLogged := true, outcome := .thrown .transportErr }

/-- The question path of the handler (text present, non-empty, not a
command): waiting message (outside the try), then the try block
(similarity search with k = 4, empty-result short-circuit, prompt build,
LLM call, answer validation, reply) with its catch. -/
def questionFlow (o : BotOracle) (c : Int) (t : String) : HTrace :=
  let a0 : HTrace := { emptyTrace with attempts := [(c, waitingMsg)] }
  if o.sendOk 0 then
    let a1 := { a0 with delivered := [(c, waitingMsg)] }
    match o.search t 4 with
    | .error _ => runCatch o c 1 { a1 with searchArgs := [(t, 4)] }
    | .ok docs =>
      let a2 := { a1 with searchArgs := [(t, 4)], retrieved := some docs }
      match docs with
      | [] =>
        let a3 := { a2 with attempts := a2.attempts ++ [(c, noInfoMsg)] }
        if o.sendOk 1 then
          { a3 with delivered := a3.delivered ++ [(c, noInfoMsg)] }
        else
          runCatch o c 2 a3
      | d :: ds =>
        let p := buildPrompt t (d :: ds)
        let a3 := { a2 with promptUsed := some p, llmCalls := 1 }
        match o.llm p with
        | .error _ => runCatch o c 1 a3
        | .ok content =>
          match validAnswer content with
          | none => runCatch o c 1 a3
          | some ans =>
            let a4 := { a3 with attempts := a3.attempts ++ [(c, ans)] }
            if o.sendOk 1 then
              { a4 with delivered := a4.delivered ++ [(c, ans)] }
            else
              runCatch o c 2 a4
  else
    { a0 with outcome := .thrown .transportErr }

/-- The `/start` branch: one greeting `sendMessage`, not wrapped in any
try, so a failed delivery rejects the handler promise. -/
def greetingFlow (o : BotOracle) (c : Int) : HTrace :=
  if o.sendOk 0 then
    { emptyTrace with attempts := [(c, greetingMsg)],
                      delivered := [(c, greetingMsg)] }
  else
    { emptyTrace with attempts := [(c, greetingMsg)],
                      outcome := .thrown .transportErr }

/-- The whole `bot.on("message")` handler from `src/chatbot.js`:
`const text = msg.text?.trim(); if (!text || text.startsWith("/")) ...`. -/
def handleMessage (o : BotOracle) (m : Msg) : HTrace :=
  match m.text with
  | none => emptyTrace
  | some raw =>
    let t := jsTrim raw
    if t = "" then emptyTrace
    else if jsStartsWith t "/" then
      if t = "/start" then greetingFlow o m.chatId else emptyTrace
    else
      questionFlow o m.chatId t

/-- The question text the handler extracts, when the message is treated
as a question (text present, non-empty after trim, not `/`-prefixed). -/
def questionOf (m : Msg) : Option String :=
  match m.text with
  | none => none
  | some raw =>
    let t := jsTrim raw
    if t = "" then none
    else if jsStartsWith t "/" then none
    else some t

/-- The `unhandledRejection` handler in `src/chatbot.js` logs the reason
and deliberately does not call `process.exit`, so it yields no exit code. -/
def onUnhandledRejection (_ : Err) : Option Nat := none

/-- Exit code produced at process level by one handler run: a normal
return exits nothing; a rejected handler promise reaches the
`unhandledRejection` handler, which never exits. -/
def serviceExit (tr : HTrace) : Option Nat :=
  match tr.outcome with
  | .normal => none
  | .thrown e => onUnhandledRejection e

end Chatbot

namespace Ingest

/-- Configuration read from the environment by `src/embed_and_store_db.js`;
each option may be absent. -/
structure IngestConfig where
  urlRemoteText : Option String
  pghost : Option String
  pgport : Option String
  pguser : Option String
  pgpassword : Option String
  pgdatabase : Option String
  tableName : Option String
  chunkSize : Option Nat
  chunkOverlap : Option Nat

/-- `Number(process.env.CHUNK_SIZE) || 1000`: an absent (NaN) or zero
value falls back to 1000. -/
def chunkSizeOf (cfg : IngestConfig) : Nat :=
  match cfg.chunkSize with
  | none => 1000
  | some n => if n = 0 then 1000 else n

/-- `Number(process.env.CHUNK_OVERLAP) || 100`. -/
def chunkOverlapOf (cfg : IngestConfig) : Nat :=
  match cfg.chunkOverlap with
  | none => 100
  | some n => if n = 0 then 100 else n

/-- `process.env.TABLE_NAME || "documentos_rag"`. -/
def tableNameOf (cfg : IngestConfig) : String :=
  cfg.tableName.getD "documentos_rag"

/-- Oracle for the ingestion run's external calls: `axios.get` on the
(possibly absent) URL, the text splitter configured with (chunkSize,
chunkOverlap), the `SELECT 1` liveness round trip, `PGVectorStore
.initialize` on the table name, and `addDocuments`. -/
structure IngestOracle where
  fetch : Option String → Except Err String
  split : Nat → Nat → String → Except Err (List String)
  liveCheck : Except Err Unit
  initStore : String → Except Err Unit
  addDocs : List String → Except Err Unit

/-- Events on the pg connection pool inside `embedAndStore`, in program
order: pool construction, the `SELECT 1` liveness query, vector-store
initialization, the batch insert, and `pool.end()`. -/
inductive PoolEvent where
  | create
  | liveCheck
  | initStore
  | addDocs
  | endPool
  deriving DecidableEq, Repr

/-- `embedAndStore(docs)`: creates the pool inside the try, checks
liveness with `SELECT 1`, initializes the store and inserts; the catch
logs and rethrows; the finally always calls `pool.end()` when the pool
exists (swallowing any error from `end`). Returns the event list in
program order together with the outcome the caller observes. -/
def embedAndStore (cfg : IngestConfig) (o : IngestOracle) (docs : List String) :
    List PoolEvent × Except Err Unit :=
  match o.liveCheck with
  | .error e => ([.create, .liveCheck, .endPool], .error e)
  | .ok _ =>
    match o.initStore (tableNameOf cfg) with
    | .error e => ([.create, .liveCheck, .initStore, .endPool], .error e)
    | .ok _ =>
      match o.addDocs docs with
      | .error e =>
        ([.create, .liveCheck, .initStore, .addDocs, .endPool], .error e)
      | .ok _ =>
        ([.create, .liveCheck, .initStore, .addDocs, .endPool], .ok ())

/-- Trace of the launcher in `src/embed_and_store_db.js`: how many times
each stage function was invoked, the pool events, whether
`clearTimeout(exitTimeout)` ran, and the argument of `process.exit`. -/
structure RunTrace where
  fetchCalls : Nat
  splitCalls : Nat
  embedStoreCalls : Nat
  poolEvents : List PoolEvent
  timerCleared : Bool
  exitCode : Nat
  deriving DecidableEq, Repr

/-- The async launcher body: reads `URL_REMOTE_TEXT` without validation,
runs fetch → split → embedAndStore, then `clearTimeout` and `process
.exit(0)` (after a 500 ms log-flush delay); the catch does `clearTimeout`
and `process.exit(1)`. -/
def runIngestion (cfg : IngestConfig) (o : IngestOracle) : RunTrace :=
  match o.fetch cfg.urlRemoteText with
  | .error _ =>
    { fetchCalls := 1, splitCalls := 0, embedStoreCalls := 0,
      poolEvents := [], timerCleared := true, exitCode := 1 }
  | .ok rawText =>
    match o.split (chunkSizeOf cfg) (chunkOverlapOf cfg) rawText with
    | .error _ =>
      { fetchCalls := 1, splitCalls := 1, embedStoreCalls := 0,
        poolEvents := [], timerCleared := true, exitCode := 1 }
    | .ok docs =>
      match embedAndStore cfg o docs with
      | (evs, .error _) =>
        { fetchCalls := 1, splitCalls := 1, embedStoreCalls := 1,
          poolEvents := evs, timerCleared := true, exitCode := 1 }
      | (evs, .ok _) =>
        { fetchCalls := 1, splitCalls := 1, embedStoreCalls := 1,
          poolEvents := evs, timerCleared := true, exitCode := 0 }

/-- The watchdog delay: `setTimeout(..., 30000)`. -/
def watchdogDelayMs : Nat := 30000

/-- The argument of `process.exit` inside the watchdog callback
(`process.exit(0)` in the source). -/
def watchdogExitCode : Nat := 0

/-- Timed outcome of a run under the watchdog. -/
structure TimedOutcome where
  watchdogFired : Bool
  timerCancelled : Bool
  exitCode : Nat
  deriving DecidableEq, Repr

/-- Timing overlay: `pipelineMs` is the real time the pipeline needs to
reach `Completed` or `Failed`.  If it exceeds the 30-second bound the
timer callback runs first and the process exits with
`watchdogExitCode`; otherwise the launcher reaches its `clearTimeout`
(present on both the success and the catch path) and the timer is
cancelled before it can fire. -/
def runWithWatchdog (cfg : IngestConfig) (o : IngestOracle)
    (pipelineMs : Nat) : TimedOutcome :=
  if watchdogDelayMs < pipelineMs then
    { watchdogFired := true, timerCancelled := false,
      exitCode := watchdogExitCode }
  else
    let tr := runIngestion cfg o
    { watchdogFired := false, timerCancelled := tr.timerCleared,
      exitCode := tr.exitCode }

/-- The predicate the spec asks of missing configuration: the process
fails (non-zero exit) before any pipeline work (fetch, chunk,
embed/store) begins. -/
def failsFastBeforePipeline (tr : RunTrace) : Prop :=
  tr.fetchCalls = 0 ∧ tr.splitCalls = 0 ∧ tr.embedStoreCalls = 0 ∧
    tr.exitCode ≠ 0

end Ingest

/-! ## Substring occurrence: basic lemmas -/

/-- `containsStr a s`: the text of `a` occurs verbatim inside `s`. -/
def containsStr (a s : String) : Prop :=
  ∃ u v : List Char, s.data = u ++ a.data ++ v

/-- `followedBy s a b`: `s` contains an occurrence of `a` followed
(strictly later) by an occurrence of `b`. -/
def followedBy (s a b : String) : Prop :=
  ∃ x y z : List Char, s.data = x ++ a.data ++ y ++ b.data ++ z

theorem containsStr_refl (a : String) : containsStr a a :=
  ⟨[], [], by simp⟩

theorem containsStr_append_left {a s : String} (c : String)
    (h : containsStr a s) : containsStr a (c ++ s) := by
  obtain ⟨u, v, hs⟩ := h
  exact ⟨c.data ++ u, v, by simp [String.data_append, hs]⟩

theorem containsStr_append_right {a s : String} (c : String)
    (h : containsStr a s) : containsStr a (s ++ c) := by
  obtain ⟨u, v, hs⟩ := h
  exact ⟨u, v ++ c.data, by simp [String.data_append, hs]⟩

theorem isPrefixL_self_append (a v : List Char) :
    isPrefixL a (a ++ v) = true := by
  induction a with
  | nil => rfl
  | cons c as ih => simp [isPrefixL, ih]

theorem occursIn_append (u b v : List Char) :
    occursIn b (u ++ b ++ v) = true := by
  induction u with
  | nil =>
    cases b with
    | nil =>
      cases v with
      | nil => rfl
      | cons c rest => simp [occursIn, isPrefixL]
    | cons c bs =>
      simpa [occursIn] using Or.inl (isPrefixL_self_append (c :: bs) v)
  | cons c u' ih =>
    simpa [occursIn] using Or.inr ih

/-- If `s` contains `a` followed by `b`, then `b` still occurs after
dropping `a.length` characters from the front of `s`. -/
theorem followedBy_occurs {s a b : String} (h : followedBy s a b) :
    occursIn b.data (s.data.drop a.data.length) = true := by
  obtain ⟨x, y, z, hs⟩ := h
  have hs' : s.data = (x ++ a.data ++ y) ++ (b.data ++ z) := by
    simp [hs, List.append_assoc]
  have hlen : a.data.length ≤ (x ++ a.data ++ y).length := by
    simp; omega
  rw [hs', List.drop_append_of_le_length hlen]
  have : (x ++ a.data ++ y).drop a.data.length ++ (b.data ++ z) =
      ((x ++ a.data ++ y).drop a.data.length) ++ b.data ++ z := by
    simp [List.append_assoc]
  rw [this]
  exact occursIn_append _ _ _

namespace Chatbot

/-- `joinSep` on a cons: either the single element or head ++ sep ++ rest. -/
theorem joinSep_cons (sep a : String) (l : List String) :
    joinSep sep (a :: l) =
      match l with
      | [] => a
      | _ :: _ => a ++ sep ++ joinSep sep l := by
  cases l <;> rfl

/-- Every list element occurs verbatim in the joined string. -/
theorem containsStr_joinSep (sep : String) :
    ∀ (l : List String) (s : String), s ∈ l → containsStr s (joinSep sep l) := by
  intro l
  induction l with
  | nil => intro s hs; cases hs
  | cons a l' ih =>
    intro s hs
    rcases List.mem_cons.mp hs with rfl | hs'
    · cases l' with
      | nil => exact containsStr_refl s
      | cons b rest =>
        rw [joinSep_cons]
        exact containsStr_append_right _
          (containsStr_append_right _ (containsStr_refl s))
    · cases l' with
      | nil => cases hs'
      | cons b rest =>
        rw [joinSep_cons]
        exact containsStr_append_left (a ++ sep) (ih s hs')

/-- Each fragment occurs verbatim in its ranked line. -/
theorem containsStr_rankTag (i : Nat) (d : String) :
    containsStr d (rankTag i d) :=
  containsStr_append_left ("(" ++ toString (i + 1) ++ ") ")
    (containsStr_refl d)

/-- The element at index `j` of `tagFragments i docs` is the rank line of
the `j`-th fragment, ranked `i + j`. -/
theorem rankTag_mem_tagFragments :
    ∀ (docs : List String) (i j : Nat) (h : j < docs.length),
      rankTag (i + j) (docs.get ⟨j, h⟩) ∈ tagFragments i docs := by
  intro docs
  induction docs with
  | nil => intro i j h; cases h
  | cons d rest ih =>
    intro i j h
    cases j with
    | zero => simp [tagFragments]
    | succ j' =>
      have h' : j' < rest.length := Nat.lt_of_succ_lt_succ h
      have := ih (i + 1) j' h'
      have heq : i + 1 + j' = i + (j' + 1) := by omega
      simp only [tagFragments, List.get]
      right
      rw [← heq]
      exact this

/-- Every fragment in `docs` has its rank line somewhere in the tag list. -/
theorem exists_rankTag_of_mem {docs : List String} {d : String}
    (h : d ∈ docs) : ∃ j, rankTag j d ∈ tagFragments 0 docs := by
  obtain ⟨⟨j, hj⟩, rfl⟩ := List.mem_iff_get.mp h
  exact ⟨0 + j, rankTag_mem_tagFragments docs 0 j hj⟩

/-- Anything occurring in the context occurs in the built prompt. -/
theorem containsStr_buildPrompt_of_context {a : String} (text : String)
    (docs : List String) (h : containsStr a (contextOf docs)) :
    containsStr a (buildPrompt text docs) := by
  unfold buildPrompt
  exact containsStr_append_right _ (containsStr_append_right _
    (containsStr_append_right _
      (containsStr_append_left (instrHeader ++ "\n\n") h)))

/-- C6 counterexample: the claim asserts the prompt contains the
fragments "followed by" the instruction, but in `src/chatbot.js` the
instruction precedes the context.  At the spec's own scenario (fragment
`"X is a thing"`, question `"What is X?"`) the fragment content is not
followed anywhere later by the instruction text. -/
theorem prompt_fragment_not_followed_by_instruction :
    ¬ followedBy (buildPrompt "What is X?" ["X is a thing"])
        "X is a thing" instrHeader := by
  intro h
  have h2 := followedBy_occurs h
  revert h2
  decide

/-- C6 (amended): for every non-empty fragment list and question, the
prompt contains each fragment's content verbatim, contains each
fragment's 1-based rank line in ranked order, contains the question
verbatim, and consists of the grounding instruction followed by the
ranked context followed by the literal question. -/
theorem buildPrompt_grounded (text : String) (docs : List String)
    (_hne : docs ≠ []) :
    (∀ d ∈ docs, containsStr d (buildPrompt text docs)) ∧
    (∀ j (h : j < docs.length),
        containsStr (rankTag j (docs.get ⟨j, h⟩)) (buildPrompt text docs)) ∧
    containsStr text (buildPrompt text docs) ∧
    buildPrompt text docs =
      instrHeader ++ "\n\n" ++ contextOf docs ++ "\n\nPregunta: " ++ text ++
        "\nRespuesta en español:" := by
  refine ⟨?_, ?_, ?_, rfl⟩
  · intro d hd
    obtain ⟨j, hj⟩ := exists_rankTag_of_mem hd
    have h1 : containsStr d (rankTag j d) := containsStr_rankTag j d
    have h2 : containsStr (rankTag j d) (contextOf docs) :=
      containsStr_joinSep "\n" _ _ hj
    obtain ⟨u1, v1, e1⟩ := h1
    obtain ⟨u2, v2, e2⟩ := h2
    have : containsStr d (contextOf docs) :=
      ⟨u2 ++ u1, v1 ++ v2, by simp [e2, e1, List.append_assoc]⟩
    exact containsStr_buildPrompt_of_context text docs this
  · intro j h
    have hmem : rankTag j (docs.get ⟨j, h⟩) ∈ tagFragments 0 docs := by
      have := rankTag_mem_tagFragments docs 0 j h
      simpa using this
    exact containsStr_buildPrompt_of_context text docs
      (containsStr_joinSep "\n" _ _ hmem)
  · unfold buildPrompt
    exact containsStr_append_right _
      (containsStr_append_left _ (containsStr_refl text))

/-- Witness for C6 at the spec's scenario input. -/
theorem buildPrompt_grounded_witness :
    containsStr "X is a thing"
      (buildPrompt "What is X?" ["X is a thing"]) ∧
    buildPrompt "What is X?" ["X is a thing"] =
      instrHeader ++ "\n\n" ++ contextOf ["X is a thing"] ++
        "\n\nPregunta: " ++ "What is X?" ++ "\nRespuesta en español:" :=
  ⟨(buildPrompt_grounded "What is X?" ["X is a thing"] (by simp)).1
      "X is a thing" (by simp),
   (buildPrompt_grounded "What is X?" ["X is a thing"] (by simp)).2.2.2⟩

end Chatbot

namespace Ingest

/-- An ingestion configuration with every option absent. -/
def cfgNone : IngestConfig :=
  { urlRemoteText := none, pghost := none, pgport := none, pguser := none,
    pgpassword := none, pgdatabase := none, tableName := none,
    chunkSize := none, chunkOverlap := none }

/-- Oracle whose fetch fails (e.g. `axios.get(undefined)` rejecting). -/
def oFetchFail : IngestOracle :=
  { fetch := fun _ => .error .fetchErr,
    split := fun _ _ t => .ok [t],
    liveCheck := .ok (),
    initStore := fun _ => .ok (),
    addDocs := fun _ => .ok () }

/-- Oracle for a fully successful ingestion run. -/
def oAllOk : IngestOracle :=
  { fetch := fun _ => .ok "texto de ejemplo",
    split := fun _ _ t => .ok [t],
    liveCheck := .ok (),
    initStore := fun _ => .ok (),
    addDocs := fun _ => .ok () }

/-- `clearTimeout(exitTimeout)` runs on every completion path of the
launcher, success or catch. -/
theorem runIngestion_timerCleared (cfg : IngestConfig) (o : IngestOracle) :
    (runIngestion cfg o).timerCleared = true := by
  unfold runIngestion
  repeat' split
  all_goals rfl

/-- C3 counterexample: when the pipeline overruns the 30-second bound the
watchdog fires, but the process exits with status 0 — not a non-zero
status as the claim states. -/
theorem watchdog_fires_with_exit_zero :
    (runWithWatchdog cfgNone oAllOk 40000).watchdogFired = true ∧
    (runWithWatchdog cfgNone oAllOk 40000).exitCode = 0 := by
  constructor <;> rfl

/-- C3 (amended): if the pipeline has not completed when the 30-second
bound elapses, the watchdog fires and the process is terminated with exit
status 0 (a success status, not a non-zero one); as soon as the pipeline
reaches Completed or Failed within the bound, the watchdog is cancelled
and never fires. -/
theorem watchdog_bound_behavior (cfg : IngestConfig) (o : IngestOracle)
    (pipelineMs : Nat) :
    runWithWatchdog cfg o pipelineMs =
      if watchdogDelayMs < pipelineMs then
        { watchdogFired := true, timerCancelled := false, exitCode := 0 }
      else
        { watchdogFired := false, timerCancelled := true,
          exitCode := (runIngestion cfg o).exitCode } := by
  unfold runWithWatchdog
  split
  · rfl
  · simp [runIngestion_timerCleared cfg o]

/-- C4 counterexample: in a run whose fetch stage fails, the storage
connection handle is never acquired and never released (zero releases,
not "exactly one"), because the pool is created only inside the
embed-and-store stage. -/
theorem pool_not_released_on_fetch_failure :
    (runIngestion cfgNone oFetchFail).poolEvents.count PoolEvent.endPool = 0 ∧
    (runIngestion cfgNone oFetchFail).poolEvents.count PoolEvent.endPool ≠ 1 ∧
    (runIngestion cfgNone oFetchFail).poolEvents.count PoolEvent.create = 0 ∧
    (runIngestion cfgNone oFetchFail).exitCode = 1 := by
  refine ⟨rfl, by decide, rfl, rfl⟩

/-- C4 (amended): the pool is acquired at the start of the embed-and-store
stage, checked with the `SELECT 1` round trip before any use, and released
exactly once on every exit path of that stage (liveness failure, store
initialization failure, insert failure, success), never more than once;
across the whole run the handle is released exactly as many times as it is
acquired, and at most once. -/
theorem pool_release_discipline (cfg : IngestConfig) (o : IngestOracle)
    (docs : List String) :
    (embedAndStore cfg o docs).1.count PoolEvent.create = 1 ∧
    (embedAndStore cfg o docs).1.count PoolEvent.endPool = 1 ∧
    (embedAndStore cfg o docs).1.head? = some PoolEvent.create ∧
    (embedAndStore cfg o docs).1[1]? = some PoolEvent.liveCheck ∧
    (embedAndStore cfg o docs).1.getLast? = some PoolEvent.endPool ∧
    (runIngestion cfg o).poolEvents.count PoolEvent.endPool =
      (runIngestion cfg o).poolEvents.count PoolEvent.create ∧
    (runIngestion cfg o).poolEvents.count PoolEvent.endPool ≤ 1 := by
  have hes : ∀ ds : List String,
      (embedAndStore cfg o ds).1.count PoolEvent.create = 1 ∧
      (embedAndStore cfg o ds).1.count PoolEvent.endPool = 1 ∧
      (embedAndStore cfg o ds).1.head? = some PoolEvent.create ∧
      (embedAndStore cfg o ds).1[1]? = some PoolEvent.liveCheck ∧
      (embedAndStore cfg o ds).1.getLast? = some PoolEvent.endPool := by
    intro ds
    unfold embedAndStore
    repeat' split
    all_goals exact ⟨rfl, rfl, rfl, rfl, rfl⟩
  have hruncount :
      (runIngestion cfg o).poolEvents.count PoolEvent.endPool =
        (runIngestion cfg o).poolEvents.count PoolEvent.create ∧
      (runIngestion cfg o).poolEvents.count PoolEvent.endPool ≤ 1 := by
    cases hf : o.fetch cfg.urlRemoteText with
    | error e =>
      simp [runIngestion, hf]
    | ok raw =>
      cases hs : o.split (chunkSizeOf cfg) (chunkOverlapOf cfg) raw with
      | error e =>
        simp [runIngestion, hf, hs]
      | ok ds =>
        have h5 := hes ds
        cases hes2 : embedAndStore cfg o ds with
        | mk evs r =>
          rw [hes2] at h5
          simp only at h5
          cases r with
          | error e =>
            simp only [runIngestion, hf, hs, hes2]
            rw [h5.2.1, h5.1]
            exact ⟨rfl, by omega⟩
          | ok u =>
            simp only [runIngestion, hf, hs, hes2]
            rw [h5.2.1, h5.1]
            exact ⟨rfl, by omega⟩
  exact ⟨(hes docs).1, (hes docs).2.1, (hes docs).2.2.1, (hes docs).2.2.2.1,
    (hes docs).2.2.2.2, hruncount.1, hruncount.2⟩

/-- C5 counterexample: with the source URI absent (a required option),
the run does not fail fast before pipeline work — the fetch stage is
invoked with the absent URL. -/
theorem missing_url_not_failfast :
    ¬ failsFastBeforePipeline (runIngestion cfgNone oFetchFail) := by
  intro h
  exact absurd h.1 (by decide)

/-- C5 (amended): missing required options are not validated at process
start; with the source URI absent the run enters the fetch stage (pipeline
work begins), the fetch fails there, and the launcher exits non-zero.
Chunk configuration and table name have defaults and never fail. -/
theorem missing_url_fails_inside_fetch (cfg : IngestConfig)
    (o : IngestOracle) (e : Err) (hu : cfg.urlRemoteText = none)
    (hf : o.fetch none = .error e) :
    (runIngestion cfg o).fetchCalls = 1 ∧
    (runIngestion cfg o).splitCalls = 0 ∧
    (runIngestion cfg o).embedStoreCalls = 0 ∧
    (runIngestion cfg o).exitCode = 1 ∧
    ¬ failsFastBeforePipeline (runIngestion cfg o) := by
  have hrun : runIngestion cfg o =
      { fetchCalls := 1, splitCalls := 0, embedStoreCalls := 0,
        poolEvents := [], timerCleared := true, exitCode := 1 } := by
    unfold runIngestion
    rw [hu, hf]
  rw [hrun]
  refine ⟨rfl, rfl, rfl, rfl, ?_⟩
  intro h
  exact absurd h.1 (by decide)

/-- Witness for C5: the missing-URL run with a failing fetch. -/
theorem missing_url_fails_inside_fetch_witness :
    (runIngestion cfgNone oFetchFail).fetchCalls = 1 ∧
    (runIngestion cfgNone oFetchFail).splitCalls = 0 ∧
    (runIngestion cfgNone oFetchFail).embedStoreCalls = 0 ∧
    (runIngestion cfgNone oFetchFail).exitCode = 1 ∧
    ¬ failsFastBeforePipeline (runIngestion cfgNone oFetchFail) :=
  missing_url_fails_inside_fetch cfgNone oFetchFail Err.fetchErr rfl rfl

/-- C7: the launcher exits 0 exactly when every stage succeeds and exits 1
otherwise; each stage runs at most once (no retry), and a stage failure
prevents the later stages from running. -/
theorem ingestion_exit_status (cfg : IngestConfig) (o : IngestOracle) :
    (runIngestion cfg o).fetchCalls = 1 ∧
    (runIngestion cfg o).splitCalls =
      (match o.fetch cfg.urlRemoteText with
       | .ok _ => 1
       | .error _ => 0) ∧
    (runIngestion cfg o).embedStoreCalls =
      (match o.fetch cfg.urlRemoteText with
       | .error _ => 0
       | .ok raw =>
         match o.split (chunkSizeOf cfg) (chunkOverlapOf cfg) raw with
         | .error _ => 0
         | .ok _ => 1) ∧
    ((runIngestion cfg o).exitCode = 0 ∨ (runIngestion cfg o).exitCode = 1) ∧
    ((runIngestion cfg o).exitCode = 0 ↔
      ∃ raw docs, o.fetch cfg.urlRemoteText = .ok raw ∧
        o.split (chunkSizeOf cfg) (chunkOverlapOf cfg) raw = .ok docs ∧
        (embedAndStore cfg o docs).2 = .ok ()) := by
  cases hf : o.fetch cfg.urlRemoteText with
  | error e =>
    have hrun : runIngestion cfg o =
        { fetchCalls := 1, splitCalls := 0, embedStoreCalls := 0,
          poolEvents := [], timerCleared := true, exitCode := 1 } := by
      simp [runIngestion, hf]
    rw [hrun]
    simp [hf]
  | ok raw =>
    cases hs : o.split (chunkSizeOf cfg) (chunkOverlapOf cfg) raw with
    | error e =>
      have hrun : runIngestion cfg o =
          { fetchCalls := 1, splitCalls := 1, embedStoreCalls := 0,
            poolEvents := [], timerCleared := true, exitCode := 1 } := by
        simp [runIngestion, hf, hs]
      rw [hrun]
      refine ⟨rfl, by simp [hf], by simp [hf, hs], Or.inr rfl, ?_⟩
      constructor
      · intro h
        exact absurd h Nat.one_ne_zero
      · rintro ⟨raw', docs', hr, hd, hok⟩
        injection hr with hr'
        subst hr'
        rw [hs] at hd
        cases hd
    | ok docs =>
      cases hes : embedAndStore cfg o docs with
      | mk evs r =>
        cases r with
        | error e =>
          have hrun : runIngestion cfg o =
              { fetchCalls := 1, splitCalls := 1, embedStoreCalls := 1,
                poolEvents := evs, timerCleared := true, exitCode := 1 } := by
            simp [runIngestion, hf, hs, hes]
          rw [hrun]
          refine ⟨rfl, by simp [hf], by simp [hf, hs], Or.inr rfl, ?_⟩
          constructor
          · intro h
            exact absurd h Nat.one_ne_zero
          · rintro ⟨raw', docs', hr, hd, hok⟩
            injection hr with hr'
            subst hr'
            rw [hs] at hd
            injection hd with hd'
            subst hd'
            rw [hes] at hok
            simp at hok
        | ok u =>
          have hrun : runIngestion cfg o =
              { fetchCalls := 1, splitCalls := 1, embedStoreCalls := 1,
                poolEvents := evs, timerCleared := true, exitCode := 0 } := by
            simp [runIngestion, hf, hs, hes]
          rw [hrun]
          refine ⟨rfl, by simp [hf], by simp [hf, hs], Or.inl rfl, ?_⟩
          constructor
          · intro _
            exact ⟨raw, docs, rfl, hs, by rw [hes]⟩
          · intro _
            rfl

end Ingest

namespace Chatbot

/-- The service never exits in reaction to a handler outcome: normal
returns exit nothing and rejections are swallowed by the
`unhandledRejection` handler. -/
theorem serviceExit_none (tr : HTrace) : serviceExit tr = none := by
  cases htr : tr.outcome <;> simp [serviceExit, htr, onUnhandledRejection]

theorem runCatch_caught (o : BotOracle) (c : Int) (i : Nat) (b : HTrace) :
    (runCatch o c i b).caughtLogged = true := by
  unfold runCatch
  split <;> rfl

theorem runCatch_attempts (o : BotOracle) (c : Int) (i : Nat) (b : HTrace) :
    (runCatch o c i b).attempts = b.attempts ++ [(c, apologyMsg)] := by
  unfold runCatch
  split <;> rfl

theorem runCatch_searchArgs (o : BotOracle) (c : Int) (i : Nat) (b : HTrace) :
    (runCatch o c i b).searchArgs = b.searchArgs := by
  unfold runCatch
  split <;> rfl

theorem runCatch_llmCalls (o : BotOracle) (c : Int) (i : Nat) (b : HTrace) :
    (runCatch o c i b).llmCalls = b.llmCalls := by
  unfold runCatch
  split <;> rfl

theorem runCatch_retrieved (o : BotOracle) (c : Int) (i : Nat) (b : HTrace) :
    (runCatch o c i b).retrieved = b.retrieved := by
  unfold runCatch
  split <;> rfl

theorem runCatch_promptUsed (o : BotOracle) (c : Int) (i : Nat) (b : HTrace) :
    (runCatch o c i b).promptUsed = b.promptUsed := by
  unfold runCatch
  split <;> rfl

theorem runCatch_outcome (o : BotOracle) (c : Int) (i : Nat) (b : HTrace) :
    (runCatch o c i b).outcome = .normal ∨
      (runCatch o c i b).outcome = .thrown .transportErr := by
  unfold runCatch
  split
  · exact Or.inl rfl
  · exact Or.inr rfl

theorem runCatch_delivered_of_sendOk (o : BotOracle) (c : Int) (i : Nat)
    (b : HTrace) (h : o.sendOk i = true) :
    (runCatch o c i b).outcome = .normal ∧
      (runCatch o c i b).delivered = b.delivered ++ [(c, apologyMsg)] := by
  unfold runCatch
  rw [if_pos h]
  exact ⟨rfl, rfl⟩

/-- A message recognized as a question routes to `questionFlow`. -/
theorem handleMessage_question (o : BotOracle) (m : Msg) (t : String)
    (hq : questionOf m = some t) :
    handleMessage o m = questionFlow o m.chatId t := by
  unfold questionOf at hq
  unfold handleMessage
  cases htext : m.text with
  | none =>
    rw [htext] at hq
    cases hq
  | some raw =>
    rw [htext] at hq
    dsimp only at hq ⊢
    split_ifs at hq ⊢
    any_goals cases hq
    rfl

/-- C2: a question whose retrieval returns zero fragments never invokes
the LLM, replies with the fixed no-information message, and stops: the
handler's only sends are the waiting message and the no-information
reply, and it returns normally. -/
theorem empty_retrieval_short_circuit (o : BotOracle) (m : Msg) (t : String)
    (hq : questionOf m = some t) (h0 : o.sendOk 0 = true)
    (hs : o.search t 4 = .ok []) (h1 : o.sendOk 1 = true) :
    (handleMessage o m).llmCalls = 0 ∧
    (handleMessage o m).promptUsed = none ∧
    (handleMessage o m).attempts =
      [(m.chatId, waitingMsg), (m.chatId, noInfoMsg)] ∧
    (handleMessage o m).delivered =
      [(m.chatId, waitingMsg), (m.chatId, noInfoMsg)] ∧
    (handleMessage o m).outcome = .normal := by
  rw [handleMessage_question o m t hq]
  unfold questionFlow
  rw [if_pos h0, hs]
  simp only [h1, if_true]
  exact ⟨rfl, rfl, rfl, rfl, rfl⟩

/-- A message whose trimmed text is a plain question. -/
def mQuestion : Msg := { chatId := 7, text := some "Que es Truora" }

/-- Oracle: empty retrieval, all deliveries succeed. -/
def oEmptySearch : BotOracle :=
  { search := fun _ _ => .ok [],
    llm := fun _ => .error .llmErr,
    sendOk := fun _ => true }

/-- Witness for C2 at a concrete question and oracle. -/
theorem empty_retrieval_short_circuit_witness :
    (handleMessage oEmptySearch mQuestion).llmCalls = 0 ∧
    (handleMessage oEmptySearch mQuestion).promptUsed = none ∧
    (handleMessage oEmptySearch mQuestion).attempts =
      [(7, waitingMsg), (7, noInfoMsg)] ∧
    (handleMessage oEmptySearch mQuestion).delivered =
      [(7, waitingMsg), (7, noInfoMsg)] ∧
    (handleMessage oEmptySearch mQuestion).outcome = .normal :=
  empty_retrieval_short_circuit oEmptySearch mQuestion "Que es Truora"
    (by decide) rfl rfl rfl

end Chatbot

namespace Chatbot

/-- A string rejected by the answer validation differs from the fixed
waiting and apology literals (both are non-empty and not
whitespace-only). -/
theorem invalid_ne_msgs {s : String} (hv : validAnswer (.str s) = none) :
    s ≠ waitingMsg ∧ s ≠ apologyMsg := by
  unfold validAnswer at hv
  dsimp only at hv
  split_ifs at hv with h1 h2
  · subst h1
    exact ⟨by decide, by decide⟩
  · constructor
    · intro h
      rw [h] at h2
      exact absurd h2 (by decide)
    · intro h
      rw [h] at h2
      exact absurd h2 (by decide)

/-- C8: when the LLM result is missing, not a string, or empty or
whitespace-only after trimming, the handler throws before the reply
send: the invalid content is never sent to any chat, the catch boundary
runs, and (when the apology delivery succeeds) the generic apology is
the only message after the waiting one. -/
theorem invalid_answer_never_sent (o : BotOracle) (m : Msg) (t : String)
    (docs : List String) (cAns : Content)
    (hq : questionOf m = some t) (h0 : o.sendOk 0 = true)
    (hs : o.search t 4 = .ok docs) (hne : docs ≠ [])
    (hl : o.llm (buildPrompt t docs) = .ok cAns)
    (hv : validAnswer cAns = none) :
    (handleMessage o m).caughtLogged = true ∧
    (handleMessage o m).attempts =
      [(m.chatId, waitingMsg), (m.chatId, apologyMsg)] ∧
    (∀ s, cAns = .str s → ∀ ch : Int, (ch, s) ∉ (handleMessage o m).attempts) ∧
    (o.sendOk 1 = true →
      (handleMessage o m).outcome = .normal ∧
      (handleMessage o m).delivered =
        [(m.chatId, waitingMsg), (m.chatId, apologyMsg)]) := by
  rw [handleMessage_question o m t hq]
  obtain ⟨d, ds, rfl⟩ := List.exists_cons_of_ne_nil hne
  have hqf : questionFlow o m.chatId t =
      runCatch o m.chatId 1
        { attempts := [(m.chatId, waitingMsg)],
          delivered := [(m.chatId, waitingMsg)],
          searchArgs := [(t, 4)],
          llmCalls := 1,
          retrieved := some (d :: ds),
          promptUsed := some (buildPrompt t (d :: ds)),
          caughtLogged := false,
          outcome := .normal } := by
    unfold questionFlow
    rw [if_pos h0, hs]
    dsimp only
    rw [hl]
    dsimp only
    rw [hv]
    rfl
  rw [hqf]
  have hatt : (runCatch o m.chatId 1
      { attempts := [(m.chatId, waitingMsg)],
        delivered := [(m.chatId, waitingMsg)],
        searchArgs := [(t, 4)],
        llmCalls := 1,
        retrieved := some (d :: ds),
        promptUsed := some (buildPrompt t (d :: ds)),
        caughtLogged := false,
        outcome := .normal }).attempts =
      [(m.chatId, waitingMsg), (m.chatId, apologyMsg)] := by
    rw [runCatch_attempts]
    rfl
  refine ⟨runCatch_caught _ _ _ _, hatt, ?_, ?_⟩
  · intro s hcs ch hmem
    subst hcs
    obtain ⟨hw, ha⟩ := invalid_ne_msgs hv
    rw [hatt] at hmem
    rcases List.mem_cons.mp hmem with h | h
    · exact hw (congrArg Prod.snd h)
    · rcases List.mem_cons.mp h with h' | h'
      · exact ha (congrArg Prod.snd h')
      · cases h'
  · intro h1
    refine ⟨(runCatch_delivered_of_sendOk o m.chatId 1 _ h1).1, ?_⟩
    rw [(runCatch_delivered_of_sendOk o m.chatId 1 _ h1).2]
    rfl

end Chatbot

namespace Chatbot

/-- Oracle returning a whitespace-only LLM answer. -/
def oBlankAnswer : BotOracle :=
  { search := fun _ _ => .ok ["X is a thing"],
    llm := fun _ => .ok (.str "   "),
    sendOk := fun _ => true }

/-- Witness for C8: a whitespace-only answer is converted to the apology. -/
theorem invalid_answer_never_sent_witness :
    (handleMessage oBlankAnswer mQuestion).caughtLogged = true ∧
    (handleMessage oBlankAnswer mQuestion).attempts =
      [(7, waitingMsg), (7, apologyMsg)] ∧
    (7, "   ") ∉ (handleMessage oBlankAnswer mQuestion).attempts :=
  have h := invalid_answer_never_sent oBlankAnswer mQuestion "Que es Truora"
    ["X is a thing"] (.str "   ") (by decide) rfl rfl (by simp) rfl (by decide)
  ⟨h.1, h.2.1, h.2.2.1 "   " rfl 7⟩

/-- The three data fields recording the handler's pipeline use, as a
function of the retrieval outcome: one `similaritySearch` call with
`k = 4`, the retrieved fragments, and the prompt built from them. -/
theorem questionFlow_data (o : BotOracle) (c : Int) (t : String)
    (h0 : o.sendOk 0 = true) :
    (questionFlow o c t).searchArgs = [(t, 4)] ∧
    ((questionFlow o c t).retrieved =
      match o.search t 4 with
      | .ok ds => some ds
      | .error _ => none) ∧
    ((questionFlow o c t).promptUsed =
      match o.search t 4 with
      | .ok (d :: ds) => some (buildPrompt t (d :: ds))
      | _ => none) := by
  unfold questionFlow
  rw [if_pos h0]
  cases hs : o.search t 4 with
  | error e =>
    dsimp only
    exact ⟨by rw [runCatch_searchArgs] <;> rfl,
      by rw [runCatch_retrieved] <;> rfl,
      by rw [runCatch_promptUsed] <;> rfl⟩
  | ok ds =>
    cases ds with
    | nil =>
      dsimp only
      by_cases h1 : o.sendOk 1 = true
      · rw [if_pos h1]
        exact ⟨rfl, rfl, rfl⟩
      · rw [if_neg h1]
        exact ⟨by rw [runCatch_searchArgs] <;> rfl,
          by rw [runCatch_retrieved] <;> rfl,
          by rw [runCatch_promptUsed] <;> rfl⟩
    | cons d ds' =>
      dsimp only
      cases hl : o.llm (buildPrompt t (d :: ds')) with
      | error e =>
        dsimp only
        exact ⟨by rw [runCatch_searchArgs] <;> rfl,
          by rw [runCatch_retrieved] <;> rfl,
          by rw [runCatch_promptUsed] <;> rfl⟩
      | ok cAns =>
        dsimp only
        cases hv : validAnswer cAns with
        | none =>
          dsimp only
          exact ⟨by rw [runCatch_searchArgs] <;> rfl,
            by rw [runCatch_retrieved] <;> rfl,
            by rw [runCatch_promptUsed] <;> rfl⟩
        | some ans =>
          dsimp only
          by_cases h1 : o.sendOk 1 = true
          · rw [if_pos h1]
            exact ⟨rfl, rfl, rfl⟩
          · rw [if_neg h1]
            exact ⟨by rw [runCatch_searchArgs] <;> rfl,
              by rw [runCatch_retrieved] <;> rfl,
              by rw [runCatch_promptUsed] <;> rfl⟩

/-- C9: the handler requests exactly one similarity search with `k = 4`;
if the store honors the at-most-`k` contract, the handler receives at
most 4 fragments and any prompt it builds is built from those at most 4
fragments. -/
theorem retrieval_top4 (o : BotOracle) (m : Msg) (t : String)
    (hq : questionOf m = some t) (h0 : o.sendOk 0 = true)
    (hk : ∀ q k ds, o.search q k = .ok ds → ds.length ≤ k) :
    (handleMessage o m).searchArgs = [(t, 4)] ∧
    (∀ ds, (handleMessage o m).retrieved = some ds → ds.length ≤ 4) ∧
    (∀ p, (handleMessage o m).promptUsed = some p →
      ∃ ds, (handleMessage o m).retrieved = some ds ∧ ds.length ≤ 4 ∧
        p = buildPrompt t ds) := by
  rw [handleMessage_question o m t hq]
  obtain ⟨hsa, hr, hp⟩ := questionFlow_data o m.chatId t h0
  refine ⟨hsa, ?_, ?_⟩
  · intro ds hds
    rw [hr] at hds
    cases hs : o.search t 4 with
    | error e =>
      rw [hs] at hds
      cases hds
    | ok ds0 =>
      rw [hs] at hds
      dsimp only at hds
      injection hds with hds'
      subst hds'
      exact hk t 4 _ hs
  · intro p hpp
    rw [hp] at hpp
    cases hs : o.search t 4 with
    | error e =>
      rw [hs] at hpp
      cases hpp
    | ok ds0 =>
      cases ds0 with
      | nil =>
        rw [hs] at hpp
        cases hpp
      | cons d ds' =>
        rw [hs] at hpp
        dsimp only at hpp
        injection hpp with hpp'
        subst hpp'
        exact ⟨d :: ds', by rw [hr, hs], hk t 4 (d :: ds') hs, rfl⟩

/-- Oracle honoring the at-most-`k` retrieval contract. -/
def oTwoDocs : BotOracle :=
  { search := fun _ k => .ok (List.take k ["A", "B"]),
    llm := fun _ => .ok (.str "respuesta"),
    sendOk := fun _ => true }

/-- Witness for C9 at a concrete contract-honoring oracle. -/
theorem retrieval_top4_witness :
    (handleMessage oTwoDocs mQuestion).searchArgs = [("Que es Truora", 4)] ∧
    (∀ ds, (handleMessage oTwoDocs mQuestion).retrieved = some ds →
      ds.length ≤ 4) :=
  have h := retrieval_top4 oTwoDocs mQuestion "Que es Truora" (by decide) rfl
    (fun q k ds hds => by
      simp only [oTwoDocs] at hds
      injection hds with hds'
      rw [← hds']
      exact le_trans (List.length_take_le k ["A", "B"]) (le_refl k))
  ⟨h.1, h.2.1⟩

/-- C10: a message with absent text, text empty after trimming, or text
starting with `/` triggers no retrieval and no generation; exactly
`/start` gets the fixed greeting, every other such message gets no
outbound reply at all. -/
theorem commands_no_pipeline (o : BotOracle) (m : Msg) :
    (m.text = none → handleMessage o m = emptyTrace) ∧
    (∀ raw, m.text = some raw → jsTrim raw = "" →
      handleMessage o m = emptyTrace) ∧
    (∀ raw, m.text = some raw → jsStartsWith (jsTrim raw) "/" = true →
      jsTrim raw = "/start" →
        (handleMessage o m).searchArgs = [] ∧
        (handleMessage o m).llmCalls = 0 ∧
        (handleMessage o m).attempts = [(m.chatId, greetingMsg)] ∧
        (o.sendOk 0 = true →
          (handleMessage o m).delivered = [(m.chatId, greetingMsg)])) ∧
    (∀ raw, m.text = some raw → jsStartsWith (jsTrim raw) "/" = true →
      jsTrim raw ≠ "/start" → handleMessage o m = emptyTrace) := by
  refine ⟨?_, ?_, ?_, ?_⟩
  · intro h
    unfold handleMessage
    rw [h]
  · intro raw hraw h1
    unfold handleMessage
    rw [hraw]
    dsimp only
    rw [if_pos h1]
  · intro raw hraw h2 h3
    unfold handleMessage
    rw [hraw]
    dsimp only
    rw [if_neg (by rw [h3]; decide), if_pos h2, if_pos h3]
    unfold greetingFlow
    by_cases h0 : o.sendOk 0 = true
    · rw [if_pos h0]
      exact ⟨rfl, rfl, rfl, fun _ => rfl⟩
    · rw [if_neg h0]
      exact ⟨rfl, rfl, rfl, fun hc => absurd hc h0⟩
  · intro raw hraw h2 h3
    unfold handleMessage
    rw [hraw]
    dsimp only
    rw [if_neg (fun he => by rw [he] at h2; exact absurd h2 (by decide)),
      if_pos h2, if_neg h3]

/-- The concrete `/start` message. -/
def mStart : Msg := { chatId := 1, text := some "/start" }

/-- Witness for C10: `/start` gets the greeting and triggers no
retrieval or generation. -/
theorem commands_no_pipeline_witness :
    (handleMessage oEmptySearch mStart).searchArgs = [] ∧
    (handleMessage oEmptySearch mStart).llmCalls = 0 ∧
    (handleMessage oEmptySearch mStart).attempts = [(1, greetingMsg)] ∧
    (handleMessage oEmptySearch mStart).delivered = [(1, greetingMsg)] :=
  have h := (commands_no_pipeline oEmptySearch mStart).2.2.1 "/start" rfl
    (by decide) (by decide)
  ⟨h.1, h.2.1, h.2.2.1, h.2.2.2 rfl⟩

end Chatbot

namespace Chatbot

theorem runCatch_attempts_getLast (o : BotOracle) (c : Int) (i : Nat)
    (b : HTrace) :
    (runCatch o c i b).attempts.getLast? = some (c, apologyMsg) := by
  rw [runCatch_attempts]
  exact List.getLast?_concat _

theorem runCatch_delivered_getLast (o : BotOracle) (c : Int) (i : Nat)
    (b : HTrace) (hout : (runCatch o c i b).outcome = .normal) :
    (runCatch o c i b).delivered.getLast? = some (c, apologyMsg) := by
  unfold runCatch at hout ⊢
  by_cases h : o.sendOk i = true
  · rw [if_pos h]
    exact List.getLast?_concat _
  · rw [if_neg h] at hout
    simp at hout

/-- Shape of the question path around the catch boundary: the only
exception kind that can escape is a transport (delivery) failure, and
whenever the catch block ran, the last attempted send — and, if the
handler returned normally, the last delivered send — is the generic
apology to the handled chat. -/
theorem questionFlow_catch_shape (o : BotOracle) (c : Int) (t : String) :
    ((questionFlow o c t).outcome = .normal ∨
      (questionFlow o c t).outcome = .thrown .transportErr) ∧
    ((questionFlow o c t).caughtLogged = true →
      (questionFlow o c t).attempts.getLast? = some (c, apologyMsg)) ∧
    ((questionFlow o c t).caughtLogged = true →
      (questionFlow o c t).outcome = .normal →
      (questionFlow o c t).delivered.getLast? = some (c, apologyMsg)) := by
  unfold questionFlow
  by_cases h0 : o.sendOk 0 = true
  · rw [if_pos h0]
    cases hs : o.search t 4 with
    | error e =>
      dsimp only
      exact ⟨runCatch_outcome _ _ _ _,
        fun _ => runCatch_attempts_getLast _ _ _ _,
        fun _ hn => runCatch_delivered_getLast _ _ _ _ hn⟩
    | ok ds =>
      cases ds with
      | nil =>
        dsimp only
        by_cases h1 : o.sendOk 1 = true
        · rw [if_pos h1]
          exact ⟨Or.inl rfl, fun hc => absurd hc (by simp [emptyTrace]),
            fun hc _ => absurd hc (by simp [emptyTrace])⟩
        · rw [if_neg h1]
          exact ⟨runCatch_outcome _ _ _ _,
            fun _ => runCatch_attempts_getLast _ _ _ _,
            fun _ hn => runCatch_delivered_getLast _ _ _ _ hn⟩
      | cons d ds' =>
        dsimp only
        cases hl : o.llm (buildPrompt t (d :: ds')) with
        | error e =>
          dsimp only
          exact ⟨runCatch_outcome _ _ _ _,
            fun _ => runCatch_attempts_getLast _ _ _ _,
            fun _ hn => runCatch_delivered_getLast _ _ _ _ hn⟩
        | ok cAns =>
          dsimp only
          cases hv : validAnswer cAns with
          | none =>
            dsimp only
            exact ⟨runCatch_outcome _ _ _ _,
              fun _ => runCatch_attempts_getLast _ _ _ _,
              fun _ hn => runCatch_delivered_getLast _ _ _ _ hn⟩
          | some ans =>
            dsimp only
            by_cases h1 : o.sendOk 1 = true
            · rw [if_pos h1]
              exact ⟨Or.inl rfl, fun hc => absurd hc (by simp [emptyTrace]),
                fun hc _ => absurd hc (by simp [emptyTrace])⟩
            · rw [if_neg h1]
              exact ⟨runCatch_outcome _ _ _ _,
                fun _ => runCatch_attempts_getLast _ _ _ _,
                fun _ hn => runCatch_delivered_getLast _ _ _ _ hn⟩
  · rw [if_neg h0]
    exact ⟨Or.inr rfl, fun hc => absurd hc (by simp [emptyTrace]),
      fun hc _ => absurd hc (by simp [emptyTrace])⟩

/-- C1: per-question error handling at the message boundary.  For every
question: (i) the only exception that can escape the handler is a
transport delivery failure — retrieval, generation, validation and reply
errors never escape; (ii) whenever the catch boundary ran (error logged)
it attempted the single generic apology to the same chat as the last
send, delivered when transport allows; (iii) every failure of a try-block
step (retrieval error, generation error, invalid answer, reply delivery
failure) enters the catch boundary; (iv) no handler outcome ever
terminates the service — rejections are swallowed by the
unhandledRejection handler. -/
theorem per_message_errors_caught (o : BotOracle) (m : Msg) (t : String)
    (hq : questionOf m = some t) :
    (∀ e, (handleMessage o m).outcome = .thrown e → e = Err.transportErr) ∧
    ((handleMessage o m).caughtLogged = true →
      (handleMessage o m).attempts.getLast? = some (m.chatId, apologyMsg)) ∧
    ((handleMessage o m).caughtLogged = true →
      (handleMessage o m).outcome = .normal →
      (handleMessage o m).delivered.getLast? = some (m.chatId, apologyMsg)) ∧
    (∀ e, o.sendOk 0 = true → o.search t 4 = .error e →
      (handleMessage o m).caughtLogged = true) ∧
    (∀ ds e, o.sendOk 0 = true → o.search t 4 = .ok ds → ds ≠ [] →
      o.llm (buildPrompt t ds) = .error e →
      (handleMessage o m).caughtLogged = true) ∧
    (∀ ds cAns, o.sendOk 0 = true → o.search t 4 = .ok ds → ds ≠ [] →
      o.llm (buildPrompt t ds) = .ok cAns → validAnswer cAns = none →
      (handleMessage o m).caughtLogged = true) ∧
    (∀ ds cAns ans, o.sendOk 0 = true → o.search t 4 = .ok ds → ds ≠ [] →
      o.llm (buildPrompt t ds) = .ok cAns → validAnswer cAns = some ans →
      o.sendOk 1 = false → (handleMessage o m).caughtLogged = true) ∧
    serviceExit (handleMessage o m) = none := by
  rw [handleMessage_question o m t hq]
  obtain ⟨hout, hatt, hdel⟩ := questionFlow_catch_shape o m.chatId t
  refine ⟨?_, hatt, hdel, ?_, ?_, ?_, ?_, serviceExit_none _⟩
  · intro e he
    rcases hout with hn | ht
    · rw [hn] at he
      cases he
    · rw [ht] at he
      injection he with he'
      exact he'.symm
  · intro e h0 hse
    unfold questionFlow
    rw [if_pos h0, hse]
    dsimp only
    exact runCatch_caught _ _ _ _
  · intro ds e h0 hse hne hl
    obtain ⟨d, ds', rfl⟩ := List.exists_cons_of_ne_nil hne
    unfold questionFlow
    rw [if_pos h0, hse]
    dsimp only
    rw [hl]
    dsimp only
    exact runCatch_caught _ _ _ _
  · intro ds cAns h0 hse hne hl hv
    obtain ⟨d, ds', rfl⟩ := List.exists_cons_of_ne_nil hne
    unfold questionFlow
    rw [if_pos h0, hse]
    dsimp only
    rw [hl]
    dsimp only
    rw [hv]
    dsimp only
    exact runCatch_caught _ _ _ _
  · intro ds cAns ans h0 hse hne hl hv h1
    obtain ⟨d, ds', rfl⟩ := List.exists_cons_of_ne_nil hne
    unfold questionFlow
    rw [if_pos h0, hse]
    dsimp only
    rw [hl]
    dsimp only
    rw [hv]
    dsimp only
    rw [if_neg (by simp [h1])]
    exact runCatch_caught _ _ _ _

/-- Oracle whose similarity search fails. -/
def oSearchFail : BotOracle :=
  { search := fun _ _ => .error .searchErr,
    llm := fun _ => .error .llmErr,
    sendOk := fun _ => true }

/-- Witness for C1: a failing retrieval is caught, the apology is the
final send, and the service does not exit. -/
theorem per_message_errors_caught_witness :
    (handleMessage oSearchFail mQuestion).caughtLogged = true ∧
    (handleMessage oSearchFail mQuestion).attempts.getLast? =
      some (7, apologyMsg) ∧
    serviceExit (handleMessage oSearchFail mQuestion) = none :=
  have h := per_message_errors_caught oSearchFail mQuestion "Que es Truora"
    (by decide)
  have hc : (handleMessage oSearchFail mQuestion).caughtLogged = true :=
    h.2.2.2.1 .searchErr rfl rfl
  ⟨hc, h.2.1 hc, h.2.2.2.2.2.2.2⟩

end Chatbot
